import Mathlib

/-!
Verification of the schema-inference / document-assembly pipeline and the
request-validation interceptor of the `nestjs-openapi3` library, as a shallow
embedding in Lean 4.

Conventions of the embedding:
- JavaScript objects used as string-keyed dictionaries become association
  lists `List (String × α)`; property read is first-match lookup, property
  write is `upsert` (update the first matching entry, else append), which is
  exactly the observable behaviour of JS object property access given that a
  JS object never holds a key twice.
- Model constructors (`Ctor` in the source) become indices `Nat` into an
  environment `List ModelCtor` describing each annotated class: its `name`,
  its class-level metadata (`@ModelRaw` / `@Model`), and its own prototype
  properties with their per-property metadata, in declaration order.
- Thrown JS exceptions become `Except JsError α`; the distinct error classes
  of `src/errors.ts` and `src/builder/errors.ts` are the constructors of
  `JsError` (`InferenceError`, `DefinitionError`, a plain `Error`,
  `OperationAlreadyExistsError`, `UnrecognizedNestMethodNumberError`).
- TypeScript design types (`design:type`) become the inductive `JType`.
-/

namespace OAS

/-- Association list lookup: the first entry with the given key, the value a
JS object property read yields. -/
def lookupStr {α : Type} : List (String × α) → String → Option α
  | [], _ => none
  | (k, v) :: rest, key => if k = key then some v else lookupStr rest key

/-- Association list write with JS object semantics: update the first entry
with the key if present, else append the new pair at the end. -/
def upsert {α : Type} : List (String × α) → String → α → List (String × α)
  | [], key, v => [(key, v)]
  | (k, w) :: rest, key, v =>
      if k = key then (k, v) :: rest else (k, w) :: upsert rest key v

/-- Lookup in a `Nat`-keyed association list (the interceptor's
`Map<Function, …>` keyed by handler identity). -/
def lookupNat {α : Type} : List (Nat × α) → Nat → Option α
  | [], _ => none
  | (k, v) :: rest, key => if k = key then some v else lookupNat rest key

/-- The error classes the library throws, one constructor per JS class:
`InferenceError`, `DefinitionError`, the untyped built-in `Error`,
`OperationAlreadyExistsError` and `UnrecognizedNestMethodNumberError`. -/
inductive JsError where
  | inference (msg : String)
  | definitionErr (msg : String)
  | generic (msg : String)
  | operationAlreadyExists (msg : String)
  | unrecognizedNestMethodNumber (msg : String)
deriving DecidableEq, Repr

/-- A TypeScript `design:type` value as the runtime sees it: one of the
built-in constructors the inference table knows, or a user model constructor
identified by its index into the model environment. -/
inductive JType where
  | jnumber
  | jstring
  | jdate
  | jboolean
  | jarray
  | jpromise
  | jobject
  | jctor (id : Nat)
deriving DecidableEq, Repr

/-- An OpenAPI `SchemaObject | ReferenceObject` as the library produces it.
Fields the library manipulates structurally (`$ref`, `type`, `format`,
`items`, the boolean combinators, `properties`, `required`) are explicit;
every other schema keyword the library merely passes through (`nullable`,
`pattern`, `enum`, `title`, …) is kept opaquely as the list of its key names
in `others`, which is all the source ever does with them apart from copying. -/
inductive OutSchema where
  | mk (ref : Option String) (type : Option String) (format : Option String)
       (items : Option OutSchema)
       (allOf : Option (List OutSchema)) (anyOf : Option (List OutSchema))
       (oneOf : Option (List OutSchema))
       (properties : Option (List (String × OutSchema)))
       (required : Option (List String))
       (others : List String)

def OutSchema.ref : OutSchema → Option String
  | .mk r _ _ _ _ _ _ _ _ _ => r

def OutSchema.type : OutSchema → Option String
  | .mk _ t _ _ _ _ _ _ _ _ => t

def OutSchema.format : OutSchema → Option String
  | .mk _ _ f _ _ _ _ _ _ _ => f

def OutSchema.items : OutSchema → Option OutSchema
  | .mk _ _ _ i _ _ _ _ _ _ => i

def OutSchema.oneOf : OutSchema → Option (List OutSchema)
  | .mk _ _ _ _ _ _ o _ _ _ => o

def OutSchema.properties : OutSchema → Option (List (String × OutSchema))
  | .mk _ _ _ _ _ _ _ p _ _ => p

def OutSchema.required : OutSchema → Option (List String)
  | .mk _ _ _ _ _ _ _ _ r _ => r

def OutSchema.others : OutSchema → List String
  | .mk _ _ _ _ _ _ _ _ _ o => o

/-- `{ type: t }`. -/
def OutSchema.typed (t : String) : OutSchema :=
  .mk none (some t) none none none none none none none []

/-- `{ type: t, format: f }`. -/
def OutSchema.typedFmt (t f : String) : OutSchema :=
  .mk none (some t) (some f) none none none none none none []

/-- `{ $ref: r }`: a bare ReferenceObject. -/
def OutSchema.refObj (r : String) : OutSchema :=
  .mk (some r) none none none none none none none none []

/-- `Object.keys(s).length`: how many keys the schema object carries. -/
def OutSchema.countKeys (s : OutSchema) : Nat :=
  match s with
  | .mk r t f i ao ay oo p rq others =>
      (if r.isSome then 1 else 0) + (if t.isSome then 1 else 0) +
      (if f.isSome then 1 else 0) + (if i.isSome then 1 else 0) +
      (if ao.isSome then 1 else 0) + (if ay.isSome then 1 else 0) +
      (if oo.isSome then 1 else 0) + (if p.isSome then 1 else 0) +
      (if rq.isSome then 1 else 0) + others.length

/-- JS object spread `{ ...a, ...b }` over schemas: a key of `b` that is
present overrides the one of `a`; `others` keys accumulate. -/
def OutSchema.spread (a b : OutSchema) : OutSchema :=
  match a, b with
  | .mk r t f i ao ay oo p rq os, .mk r2 t2 f2 i2 ao2 ay2 oo2 p2 rq2 os2 =>
      .mk (r2 <|> r) (t2 <|> t) (f2 <|> f) (i2 <|> i) (ao2 <|> ao)
        (ay2 <|> ay) (oo2 <|> oo) (p2 <|> p) (rq2 <|> rq) (os ++ os2)

/-- `references.ts` `schemaReference`: the `$ref` object pointing at the
named component schema. -/
def schemaReference (name : String) : OutSchema :=
  OutSchema.refObj ("#/components/schemas/" ++ name)

/-- A `SchemaLike` input (`types.ts`): a constructor, the 1-element-array
shorthand, a ReferenceObject, or a literal schema whose combinator members
may themselves be SchemaLikes. As with `OutSchema`, keywords the resolver
passes through untouched are the opaque key list `others`. -/
inductive SchemaLike where
  | fn (t : JType)
  | arr (inner : SchemaLike)
  | refObj (r : String)
  | lit (type : Option String) (format : Option String)
        (allOf : Option (List SchemaLike)) (anyOf : Option (List SchemaLike))
        (oneOf : Option (List SchemaLike))
        (others : List String)

/-- `ScalarPropArgs` (`types.ts`): `type` and `format` are the fields
`buildSchemaFromAnnotatedProp` inspects; the remaining allowed keywords are
opaque key names. -/
structure ScalarPropArgs where
  type : Option String
  format : Option String
  others : List String

/-- `ArrayPropArgs` (`types.ts`): an `items` SchemaLike plus opaque array
keywords (`uniqueItems`, `minItems`, `maxItems`, `nullable`). -/
structure ArrayPropArgs where
  items : SchemaLike
  others : List String

/-- The per-property metadata `buildSchemaFromAnnotatedProp` reads from the
reflection store: the emitted `design:type` and the values under the
`OPENAPI_MODEL_PROP_RAW` / `OPENAPI_MODEL_PROP` / `OPENAPI_MODEL_PROP_ARRAY`
/ `OPENAPI_MODEL_PROP_REQUIRED` keys (each absent when the decorator that
writes it was not applied). -/
structure PropMeta where
  designType : JType
  rawProp : Option OutSchema
  prop : Option ScalarPropArgs
  arrayProp : Option ArrayPropArgs
  required : Option Bool

/-- `ModelBaseInfo` (`decorators/model.ts`): class-level schema info spread
verbatim into the built schema; the library never inspects it, so it is the
opaque list of its key names. -/
structure ModelBaseInfo where
  keys : List String

/-- One annotated class of the program: its constructor `name`, its
class-level metadata (`OPENAPI_MODEL_RAW`, `OPENAPI_MODEL_BASE`), and its own
prototype property names with their metadata, in declaration order (the
`constructor` entry already filtered out). -/
structure ModelCtor where
  name : String
  raw : Option OutSchema
  base : Option ModelBaseInfo
  props : List (String × PropMeta)

/-- The name of the constructor with the given index (`t.name` in JS); a
constructor outside the environment stands for a function carrying no
metadata, whose name the model does not track. -/
def ctorName (env : List ModelCtor) (i : Nat) : String :=
  match env.get? i with
  | some c => c.name
  | none => ""

/-- `utils/schemas.ts` `inferSchema`: the primitive-inference table.
`Number`, `String`, `Date`, `Boolean` map to their schema objects; `Array`,
`Promise` and `Object` throw `InferenceError`; any other constructor is
pushed onto `modelsToParse` and a `$ref` to its name is returned. -/
def inferSchema (env : List ModelCtor) (type : JType) (modelsToParse : List Nat) :
    Except JsError (OutSchema × List Nat) :=
  match type with
  | .jnumber => .ok (OutSchema.typed "number", modelsToParse)
  | .jstring => .ok (OutSchema.typed "string", modelsToParse)
  | .jdate => .ok (OutSchema.typedFmt "string" "date", modelsToParse)
  | .jboolean => .ok (OutSchema.typed "boolean", modelsToParse)
  | .jarray => .error (.inference "Array received as a type in inferSchema.")
  | .jpromise => .error (.inference "Promise received as a type in inferSchema.")
  | .jobject => .error (.inference "Object received as a type in inferSchema.")
  | .jctor i => .ok (schemaReference (ctorName env i), modelsToParse ++ [i])

mutual

/-- `utils/schemas.ts` `parseSchemaLike`: a function input goes through
`inferSchema`; a 1-element array becomes `{type:"array", items: …}`; a
ReferenceObject is returned unchanged; a literal schema is shallow-copied
with each of `allOf` / `anyOf` / `oneOf`, when present, resolved
element-wise. The `modelsToParse` side effect is threaded through. -/
def parseSchemaLike (env : List ModelCtor) (c : SchemaLike) (modelsToParse : List Nat) :
    Except JsError (OutSchema × List Nat) :=
  match c with
  | .fn t => inferSchema env t modelsToParse
  | .arr inner =>
      match parseSchemaLike env inner modelsToParse with
      | .error e => .error e
      | .ok (s, p) =>
          .ok (.mk none (some "array") none (some s) none none none none none [], p)
  | .refObj r => .ok (OutSchema.refObj r, modelsToParse)
  | .lit t f ao ay oo others =>
      match parseSchemaLikeListOpt env ao modelsToParse with
      | .error e => .error e
      | .ok (ao2, p1) =>
          match parseSchemaLikeListOpt env ay p1 with
          | .error e => .error e
          | .ok (ay2, p2) =>
              match parseSchemaLikeListOpt env oo p2 with
              | .error e => .error e
              | .ok (oo2, p3) =>
                  .ok (.mk none t f none ao2 ay2 oo2 none none others, p3)

/-- `c.allOf.map(sub => parseSchemaLike(sub, modelsToParse))` when the member
is present (`if (c.allOf)`); an absent member stays absent. -/
def parseSchemaLikeListOpt (env : List ModelCtor) (cs : Option (List SchemaLike))
    (modelsToParse : List Nat) :
    Except JsError (Option (List OutSchema) × List Nat) :=
  match cs with
  | none => .ok (none, modelsToParse)
  | some l =>
      match parseSchemaLikeList env l modelsToParse with
      | .error e => .error e
      | .ok (l2, p) => .ok (some l2, p)

/-- Element-wise resolution of a combinator member list, left to right. -/
def parseSchemaLikeList (env : List ModelCtor) (cs : List SchemaLike)
    (modelsToParse : List Nat) :
    Except JsError (List OutSchema × List Nat) :=
  match cs with
  | [] => .ok ([], modelsToParse)
  | c :: rest =>
      match parseSchemaLike env c modelsToParse with
      | .error e => .error e
      | .ok (s, p) =>
          match parseSchemaLikeList env rest p with
          | .error e => .error e
          | .ok (l, p2) => .ok (s :: l, p2)

end

/-- `decorators/model.ts` `PropRaw(schema, opts)`: writes the raw-override
schema and the required flag (the decorator's `opts` parameter defaults to
`{ required: true }`). `designType` is the `design:type` TypeScript emits
alongside. -/
def PropRaw (schema : OutSchema) (required : Bool) (designType : JType) : PropMeta :=
  ⟨designType, some schema, none, none, some required⟩

/-- `decorators/model.ts` `Prop(args, opts)` (named `Prop'` because `Prop` is
a Lean keyword): writes the scalar prop args and the required flag
(`opts` defaults to `{ required: true }`). -/
def Prop' (args : ScalarPropArgs) (required : Bool) (designType : JType) : PropMeta :=
  ⟨designType, none, some args, none, some required⟩

/-- `decorators/model.ts` `ArrayProp(args)`: writes only the array prop args
— it takes no `opts` parameter and writes no required flag at all. -/
def ArrayProp (args : ArrayPropArgs) (designType : JType) : PropMeta :=
  ⟨designType, none, none, some args, none⟩

/-- The accumulator `buildSchemaFromAnnotatedProp` mutates: the schema under
construction holds `properties` (always created) and `required` (created on
first use), plus the threaded `modelsToParse`. -/
structure PropFoldState where
  properties : List (String × OutSchema)
  required : Option (List String)
  modelsToParse : List Nat

/-- `utils/schemas.ts` `buildSchemaFromAnnotatedProp`: skip the property
unless one of {raw override, scalar prop args, array prop args} is present;
compute the property schema (raw verbatim; scalar args merged over inference
when neither `type` nor `format` was given, with the bare-`$ref`-with-siblings
case rewrapped as `oneOf`; array args with resolved `items`); if the
required flag is truthy append the name to `required` (created on first
use); finally store the schema under the property name. -/
def buildSchemaFromAnnotatedProp (env : List ModelCtor) (propName : String)
    (propMetadata : PropMeta) (st : PropFoldState) :
    Except JsError PropFoldState :=
  let type := propMetadata.designType
  let rawProp := propMetadata.rawProp
  let normalProp := propMetadata.prop
  let arrayProp := propMetadata.arrayProp
  let isProp := rawProp.isSome || normalProp.isSome || arrayProp.isSome
  let required := propMetadata.required
  if isProp then
    let schemaE : Except JsError (OutSchema × List Nat) :=
      match rawProp with
      | some s => .ok (s, st.modelsToParse)
      | none =>
          match normalProp with
          | some args =>
              let inferredE : Except JsError (Option OutSchema × List Nat) :=
                if args.type.isNone && args.format.isNone then
                  match inferSchema env type st.modelsToParse with
                  | .error e => .error e
                  | .ok (s, p) => .ok (some s, p)
                else .ok (none, st.modelsToParse)
              match inferredE with
              | .error e => .error e
              | .ok (inferred, p) =>
                  let base : OutSchema :=
                    .mk none args.type args.format none none none none none none args.others
                  let propSchema :=
                    match inferred with
                    | none => base
                    | some inf => base.spread inf
                  let propSchema :=
                    match propSchema.ref with
                    | some r =>
                        if propSchema.countKeys > 1 then
                          match propSchema with
                          | .mk _ t f i ao ay _ p rq os =>
                              .mk none t f i ao ay (some [OutSchema.refObj r]) p rq os
                        else propSchema
                    | none => propSchema
                  .ok (propSchema, p)
          | none =>
              match arrayProp with
              | some args =>
                  match parseSchemaLike env args.items st.modelsToParse with
                  | .error e => .error e
                  | .ok (it, p) =>
                      .ok (.mk none (some "array") none (some it) none none none none none
                            args.others, p)
              | none => .error (.generic "fencepost: cannot reach.")
    match schemaE with
    | .error e => .error e
    | .ok (propSchema, p) =>
        let newRequired :=
          if required = some true then
            some ((st.required.getD []) ++ [propName])
          else st.required
        .ok ⟨upsert st.properties propName propSchema, newRequired, p⟩
  else .ok st

/-- The loop of `buildSchemaFromAnnotatedType` over the prototype's own
property names, in declaration order; an exception thrown for one property
aborts the whole build, as in JS. -/
def buildPropsLoop (env : List ModelCtor) :
    List (String × PropMeta) → PropFoldState → Except JsError PropFoldState
  | [], st => .ok st
  | (n, pm) :: rest, st =>
      match buildSchemaFromAnnotatedProp env n pm st with
      | .error e => .error e
      | .ok st2 => buildPropsLoop env rest st2

/-- `utils/schemas.ts` `buildSchemaFromAnnotatedType`: a raw-override
metadata entry is returned verbatim; otherwise a base-info entry is
required — absent one, the builder throws the plain `Error`
`Type '<name>' lacks @ModelRaw or @Model annotation.` (note: the untyped JS
`Error`, not the library's `DefinitionError` class). Otherwise the schema is
`{...baseInfo, type:"object", properties:{}}` filled in by the property
loop. -/
def buildSchemaFromAnnotatedType (env : List ModelCtor) (i : Nat)
    (modelsToParse : List Nat) : Except JsError (OutSchema × List Nat) :=
  match env.get? i with
  | none => .error (.generic "Type lacks @ModelRaw or @Model annotation.")
  | some c =>
      match c.raw with
      | some s => .ok (s, modelsToParse)
      | none =>
          match c.base with
          | none =>
              .error (.generic ("Type '" ++ c.name ++ "' lacks @ModelRaw or @Model annotation."))
          | some bi =>
              match buildPropsLoop env c.props ⟨[], none, modelsToParse⟩ with
              | .error e => .error e
              | .ok st =>
                  .ok (.mk none (some "object") none none none none none
                        (some st.properties) st.required bi.keys, st.modelsToParse)

/-- The schemas the validation side compiles: the primitive type schemas the
interceptor negotiates and coerces, `{}` (no schema given), and a `$ref`. -/
inductive VSchema where
  | vnumber
  | vstring
  | vboolean
  | vempty
  | vref (r : String)
deriving DecidableEq, Repr

/-- A `ParameterObject`: the fields the library reads (`name`, `in`, and the
schema compiled for validation). `locIn` is the `in` location string:
`"query"`, `"path"`, `"header"` or `"cookie"`. -/
structure ParameterObject where
  name : String
  locIn : String
  schema : Option VSchema

/-- A `RequestBodyObject` as the interceptor and scanner consume it: the
`content` map from media type to the media-type object's optional schema. -/
structure RequestBodyObject where
  content : List (String × Option VSchema)

/-- An assembled `OperationObject` as `scanEndpoint` registers it. -/
structure OperationObject where
  tags : List String
  operationId : String
  deprecated : Option Bool
  summary : Option String
  description : Option String
  externalDocs : Option String
  parameters : List ParameterObject
  requestBody : Option RequestBodyObject
  responses : List (String × Unit)
  security : List (List (String × List String))

/-- A path item: the JS object mapping lower-case method names to
operations. -/
abbrev PathItem := List (String × OperationObject)

/-- `rootDoc.paths`: the JS object mapping path strings to path items. -/
abbrev Paths := List (String × PathItem)

/-- The operation registered under `(path, method)`, if any. -/
def getOp (ps : Paths) (path method : String) : Option OperationObject :=
  match lookupStr ps path with
  | none => none
  | some item => lookupStr item method

/-- Write `operation` under `method` into the item stored at `path`
(`currentPathItem[method] = operation` mutating the shared item object). -/
def setOpInPath (ps : Paths) (path method : String) (operation : OperationObject) : Paths :=
  match ps with
  | [] => []
  | (k, item) :: rest =>
      if k = path then (k, upsert item method operation) :: rest
      else (k, item) :: setOpInPath rest path method operation

/-- JS `String.prototype.toUpperCase` restricted to ASCII, which covers the
lower-case method names it is applied to. -/
def toUpperCase (s : String) : String :=
  ⟨s.data.map fun c =>
    if 97 ≤ c.toNat ∧ c.toNat ≤ 122 then Char.ofNat (c.toNat - 32) else c⟩

/-- `builder/index.ts` `OpenapiBuilder.addOperation`: if no item exists at
`path` one is created (`addPath(path, {})`); then, if an operation is
already stored under `method`, `OperationAlreadyExistsError` is thrown —
the throw happens before any mutation, so the paths object is returned
unchanged alongside the error; otherwise the operation is stored. The pair
returned is (thrown error or unit, the paths object after the call), making
the in-place mutation of `rootDoc.paths` explicit. -/
def addOperation (ps : Paths) (path method : String) (operation : OperationObject) :
    Except JsError Unit × Paths :=
  match lookupStr ps path with
  | none =>
      (.ok (), setOpInPath (upsert ps path []) path method operation)
  | some currentPathItem =>
      match lookupStr currentPathItem method with
      | some _ =>
          (.error (.operationAlreadyExists (toUpperCase method ++ " " ++ path)), ps)
      | none => (.ok (), setOpInPath ps path method operation)

/-- `rootDoc.components.schemas`: the JS object mapping component-schema
names to schemas, in insertion order. -/
abbrev Schemas := List (String × OutSchema)

/-- The key list of the schemas object. -/
def keysOf (s : Schemas) : List String := s.map Prod.fst

/-- Every key of `s` is a key of `s2`: the schemas object only grows under
`ensureSchemaFromType`. -/
def SubKeys (s s2 : Schemas) : Prop := ∀ k, k ∈ keysOf s → k ∈ keysOf s2

theorem SubKeys.rfl {s : Schemas} : SubKeys s s := fun _ h => h

theorem SubKeys.trans {a b c : Schemas} (h1 : SubKeys a b) (h2 : SubKeys b c) :
    SubKeys a c := fun k hk => h2 k (h1 k hk)

/-- All component names the environment can ever contribute. -/
def schemaNames (env : List ModelCtor) : List String := env.map ModelCtor.name

/-- Termination measure: how many environment names are not yet registered. -/
def missingCount (env : List ModelCtor) (s : Schemas) : Nat :=
  ((schemaNames env).toFinset \ (keysOf s).toFinset).card

theorem mem_keys_upsert_self {s : Schemas} {key : String} {v : OutSchema} :
    key ∈ keysOf (upsert s key v) := by
  induction s with
  | nil => simp [upsert, keysOf]
  | cons hd tl ih =>
      obtain ⟨k, w⟩ := hd
      by_cases h : k = key
      · simp [upsert, h, keysOf]
      · simp only [upsert, if_neg h, keysOf, List.map_cons, List.mem_cons]
        exact Or.inr ih

theorem mem_keys_upsert_of_mem {s : Schemas} {key k2 : String} {v : OutSchema}
    (h : k2 ∈ keysOf s) : k2 ∈ keysOf (upsert s key v) := by
  induction s with
  | nil => simp [keysOf] at h
  | cons hd tl ih =>
      obtain ⟨k, w⟩ := hd
      by_cases hk : k = key
      · simpa [upsert, hk, keysOf] using h
      · simp only [keysOf, List.map_cons, List.mem_cons] at h
        rcases h with h | h
        · simp [upsert, if_neg hk, keysOf, h]
        · simp only [upsert, if_neg hk, keysOf, List.map_cons, List.mem_cons]
          exact Or.inr (ih h)

theorem keys_upsert_sub {s : Schemas} {key k2 : String} {v : OutSchema}
    (h : k2 ∈ keysOf (upsert s key v)) : k2 = key ∨ k2 ∈ keysOf s := by
  induction s with
  | nil => simpa [upsert, keysOf] using h
  | cons hd tl ih =>
      obtain ⟨k, w⟩ := hd
      by_cases hk : k = key
      · simp only [upsert, if_pos hk, keysOf, List.map_cons, List.mem_cons] at h
        rcases h with h | h
        · exact Or.inl (h.trans hk)
        · exact Or.inr (by simp [keysOf, h])
      · simp only [upsert, if_neg hk, keysOf, List.map_cons, List.mem_cons] at h
        rcases h with h | h
        · exact Or.inr (by simp [keysOf, h])
        · rcases ih h with h2 | h2
          · exact Or.inl h2
          · refine Or.inr ?_
            simp only [keysOf, List.map_cons, List.mem_cons]
            exact Or.inr h2

theorem keys_upsert_nodup {s : Schemas} {key : String} {v : OutSchema}
    (h : (keysOf s).Nodup) : (keysOf (upsert s key v)).Nodup := by
  induction s with
  | nil => simp [upsert, keysOf]
  | cons hd tl ih =>
      obtain ⟨k, w⟩ := hd
      simp only [keysOf, List.map_cons, List.nodup_cons] at h
      by_cases hk : k = key
      · simp only [upsert, if_pos hk, keysOf, List.map_cons, List.nodup_cons]
        exact ⟨h.1, h.2⟩
      · simp only [upsert, if_neg hk, keysOf, List.map_cons, List.nodup_cons]
        refine ⟨fun hmem => ?_, ih h.2⟩
        rcases keys_upsert_sub hmem with h2 | h2
        · exact hk (h2.symm ▸ rfl)
        · exact h.1 h2

theorem missingCount_mono {env : List ModelCtor} {s1 s2 : Schemas}
    (h : SubKeys s1 s2) : missingCount env s2 ≤ missingCount env s1 := by
  apply Finset.card_le_card
  intro x hx
  simp only [missingCount, Finset.mem_sdiff, List.mem_toFinset] at hx ⊢
  exact ⟨hx.1, fun hmem => hx.2 (h x hmem)⟩

theorem missingCount_upsert_lt {env : List ModelCtor} {s : Schemas}
    {name : String} {sch : OutSchema}
    (h1 : name ∈ schemaNames env) (h2 : name ∉ keysOf s) :
    missingCount env (upsert s name sch) < missingCount env s := by
  apply Finset.card_lt_card
  constructor
  · intro x hx
    simp only [missingCount, Finset.mem_sdiff, List.mem_toFinset] at hx ⊢
    exact ⟨hx.1, fun hmem => hx.2 (mem_keys_upsert_of_mem hmem)⟩
  · intro hsub
    have hmem : name ∈ (schemaNames env).toFinset \ (keysOf s).toFinset := by
      simp only [Finset.mem_sdiff, List.mem_toFinset]
      exact ⟨h1, h2⟩
    have := hsub hmem
    simp only [Finset.mem_sdiff, List.mem_toFinset] at this
    exact this.2 mem_keys_upsert_self

theorem build_ok_name_mem {env : List ModelCtor} {t : Nat} {m : List Nat}
    {r : OutSchema × List Nat}
    (h : buildSchemaFromAnnotatedType env t m = .ok r) :
    ctorName env t ∈ schemaNames env := by
  unfold buildSchemaFromAnnotatedType at h
  cases he : env.get? t with
  | none => rw [he] at h; exact absurd h (by simp)
  | some c =>
      have hc : c ∈ env := List.get?_mem he
      simp only [ctorName, he, schemaNames]
      exact List.mem_map_of_mem ModelCtor.name hc

/-- The invariants `ensureList` maintains, carried in its result so they are
available both to the termination proof and to the theorems: the schemas
object only grows, key uniqueness is preserved
(`addSchema` is only reached behind the absence check), and every
constructor of the processed work list ends registered under its name. -/
def EnsureInv (env : List ModelCtor) (s : Schemas) (ts : List Nat) (s2 : Schemas) : Prop :=
  SubKeys s s2 ∧ ((keysOf s).Nodup → (keysOf s2).Nodup) ∧
    ∀ t ∈ ts, ctorName env t ∈ keysOf s2

/-- `builder/index.ts` `OpenapiBuilder.ensureSchemaFromType`, with the
recursive expansion over the discovered `modelsToParse` made explicit as a
work list: `ensureList env s (t :: rest)` performs `ensureSchemaFromType(t)`
(immediate return when a schema with the constructor's name is already
present; otherwise build, `addSchema` under the constructor's name, then
recursively ensure every model the build discovered as pending) and then
continues with `rest`. -/
def ensureList (env : List ModelCtor) (s : Schemas) (ts : List Nat) :
    Except JsError {s2 : Schemas // EnsureInv env s ts s2} :=
  match ts with
  | [] => .ok ⟨s, SubKeys.rfl, id, by intro t ht; cases ht⟩
  | t :: rest =>
      let name := ctorName env t
      if hmem : name ∈ keysOf s then
        match ensureList env s rest with
        | .error e => .error e
        | .ok ⟨s2, hp⟩ =>
            .ok ⟨s2, hp.1, hp.2.1, by
              intro u hu
              rcases List.mem_cons.mp hu with hu | hu
              · exact hp.1 _ (hu ▸ hmem)
              · exact hp.2.2 u hu⟩
      else
        match hbuild : buildSchemaFromAnnotatedType env t [] with
        | .error e => .error e
        | .ok (sch, pending) =>
            let s1 := upsert s name sch
            match ensureList env s1 pending with
            | .error e => .error e
            | .ok ⟨s2, hp12⟩ =>
                match ensureList env s2 rest with
                | .error e => .error e
                | .ok ⟨s3, hp23⟩ =>
                    .ok ⟨s3, by
                      refine ⟨fun k hk => hp23.1 k (hp12.1 k (mem_keys_upsert_of_mem hk)),
                        fun hnd => hp23.2.1 (hp12.2.1 (keys_upsert_nodup hnd)), ?_⟩
                      intro u hu
                      rcases List.mem_cons.mp hu with hu | hu
                      · exact hu ▸ hp23.1 _ (hp12.1 _ mem_keys_upsert_self)
                      · exact hp23.2.2 u hu⟩
termination_by (missingCount env s, ts.length)
decreasing_by
  · exact Prod.Lex.right (missingCount env s) (Nat.lt_succ_self rest.length)
  · apply Prod.Lex.left
    exact missingCount_upsert_lt (build_ok_name_mem hbuild) hmem
  · apply Prod.Lex.left
    calc missingCount env s2 ≤ missingCount env (upsert s (ctorName env t) sch) :=
          missingCount_mono hp12.1
      _ < missingCount env s := missingCount_upsert_lt (build_ok_name_mem hbuild) hmem

/-- `builder/index.ts` `OpenapiBuilder.ensureSchemaFromType(t)` proper: the
single-constructor entry point, returning the schemas object after the
call. -/
def ensureSchemaFromType (env : List ModelCtor) (s : Schemas) (t : Nat) :
    Except JsError Schemas :=
  match ensureList env s [t] with
  | .error e => .error e
  | .ok s2 => .ok s2.val

/-- A sequence of `ensureSchemaFromType` calls against the same builder, as
the scanner's `for (const modelToParse of opInfo.modelsToParse)` loop (and
any other interleaving of ensure calls) performs them; an exception aborts
the rest of the sequence. -/
def ensureChain (env : List ModelCtor) (s : Schemas) : List Nat → Except JsError Schemas
  | [] => .ok s
  | t :: rest =>
      match ensureSchemaFromType env s t with
      | .error e => .error e
      | .ok s2 => ensureChain env s2 rest

theorem ensureSchemaFromType_inv {env : List ModelCtor} {s s2 : Schemas} {t : Nat}
    (h : ensureSchemaFromType env s t = .ok s2) :
    SubKeys s s2 ∧ ((keysOf s).Nodup → (keysOf s2).Nodup) ∧
      ctorName env t ∈ keysOf s2 := by
  unfold ensureSchemaFromType at h
  cases heq : ensureList env s [t] with
  | error e => rw [heq] at h; cases h
  | ok r =>
      rw [heq] at h
      cases h
      obtain ⟨hsub, hnd, hm⟩ := r.property
      exact ⟨hsub, hnd, hm t (by simp)⟩

theorem ensureSchemaFromType_of_mem {env : List ModelCtor} {s : Schemas} {t : Nat}
    (hmem : ctorName env t ∈ keysOf s) :
    ensureSchemaFromType env s t = .ok s := by
  simp [ensureSchemaFromType, ensureList, hmem]

theorem lookupStr_upsert_self {α : Type} (l : List (String × α)) (k : String) (v : α) :
    lookupStr (upsert l k v) k = some v := by
  induction l with
  | nil => simp [upsert, lookupStr]
  | cons hd tl ih =>
      obtain ⟨k2, w⟩ := hd
      by_cases h : k2 = k
      · simp [upsert, h, lookupStr]
      · simp [upsert, h, lookupStr, ih]

theorem lookup_setOpInPath_self {ps : Paths} {path : String} {item : PathItem}
    (hp : lookupStr ps path = some item) (method : String) (op : OperationObject) :
    lookupStr (setOpInPath ps path method op) path = some (upsert item method op) := by
  induction ps with
  | nil => simp [lookupStr] at hp
  | cons hd tl ih =>
      obtain ⟨k, it⟩ := hd
      by_cases h : k = path
      · simp only [lookupStr, if_pos h] at hp
        cases hp
        simp [setOpInPath, h, lookupStr]
      · simp only [lookupStr, if_neg h] at hp
        simp [setOpInPath, h, lookupStr, ih hp]

theorem ensureChain_inv {env : List ModelCtor} {ts : List Nat} {s s2 : Schemas}
    (h : ensureChain env s ts = .ok s2) :
    SubKeys s s2 ∧ ((keysOf s).Nodup → (keysOf s2).Nodup) := by
  induction ts generalizing s with
  | nil =>
      simp only [ensureChain] at h
      cases h
      exact ⟨SubKeys.rfl, id⟩
  | cons t rest ih =>
      simp only [ensureChain] at h
      cases heq : ensureSchemaFromType env s t with
      | error e => rw [heq] at h; cases h
      | ok s1 =>
          rw [heq] at h
          obtain ⟨hsub1, hnd1, hmem1⟩ := ensureSchemaFromType_inv heq
          obtain ⟨hsub2, hnd2⟩ := ih h
          exact ⟨hsub1.trans hsub2, fun hh => hnd2 (hnd1 hh)⟩

/-- The value stored under `OPENAPI_OPERATION_INFO`: the partial
`OperationObject` the `Operation` decorator records (`summary`,
`description`, `deprecated`, `externalDocs`, `responses`). -/
structure OperationInfoPartial where
  summary : Option String
  description : Option String
  deprecated : Option Bool
  externalDocs : Option String
  responses : Option (List (String × Unit))

/-- A metadata record (the untyped per-target key/value store), restricted
to the keys the scanner and the interceptor read: `method` and `path` (from
the routing framework), and the library's `OPENAPI_IGNORE`, `OPENAPI_TAGS`,
`OPENAPI_DEPRECATED`, `OPENAPI_PARAMETER`, `OPENAPI_SECURITY_SCHEMES`,
`OPENAPI_INTERNAL_MODELS_TO_PARSE`, `OPENAPI_OPERATION_INFO`,
`OPENAPI_REQUEST_BODY`, `OPENAPI_REQUEST_INDEX` and
`OPENAPI_PARAMETER_BY_INDEX` keys; `none` is an absent key. -/
structure MetaDict where
  method : Option Nat
  path : Option String
  ignore : Option Bool
  tags : Option (List String)
  deprecated : Option Bool
  parameters : Option (List (String × ParameterObject))
  securitySchemes : Option (List (String × Option (List String)))
  modelsToParse : Option (List Nat)
  operationInfo : Option OperationInfoPartial
  requestBody : Option RequestBodyObject
  requestIndex : Option Nat
  parameterByIndex : Option (List (Nat × ParameterObject))

/-- A metadata record with every key absent. -/
def emptyMeta : MetaDict :=
  ⟨none, none, none, none, none, none, none, none, none, none, none, none⟩

/-- `scanner/operation-info.ts` `BaseOperationInfo`, plus the `ignore` flag
`checkIgnore` sets on it at runtime (absent = `false`). -/
structure BaseOperationInfo where
  ignore : Bool
  tags : List String
  pathChunks : List String
  deprecated : Option Bool
  parameters : List (String × ParameterObject)
  modelsToParse : List Nat
  securitySchemes : List (String × Option (List String))

/-- `scanner/operation-info.ts` `OperationInfo`: the base fields plus the
endpoint-specific ones. -/
structure OperationInfo where
  base : BaseOperationInfo
  name : String
  nestMethodIndex : Nat
  summary : Option String
  description : Option String
  externalDocs : Option String
  requestBody : Option RequestBodyObject
  responses : List (String × Unit)

/-- The fresh cascade state `scanModule` builds before merging metadata. -/
def emptyBaseOpInfo : BaseOperationInfo := ⟨false, [], [], none, [], [], []⟩

/-- JS `{...a, ...b}` / repeated keyed writes over an object: every pair of
`b` written into `a`, later writes per key winning. -/
def objAssign {α : Type} (a b : List (String × α)) : List (String × α) :=
  b.foldl (fun acc kv => upsert acc kv.1 kv.2) a

/-- `metadata-checks.ts` `checkIgnore`: a truthy `OPENAPI_IGNORE` value is
copied onto the operation info. -/
def checkIgnore (m : MetaDict) (op : BaseOperationInfo) : BaseOperationInfo :=
  match m.ignore with
  | some true => { op with ignore := true }
  | _ => op

/-- `metadata-checks.ts` `checkPathChunks`. -/
def checkPathChunks (m : MetaDict) (op : BaseOperationInfo) : BaseOperationInfo :=
  match m.path with
  | some p => { op with pathChunks := op.pathChunks ++ [p] }
  | none => op

/-- `metadata-checks.ts` `checkDeprecated`: a truthy flag is copied. -/
def checkDeprecated (m : MetaDict) (op : BaseOperationInfo) : BaseOperationInfo :=
  match m.deprecated with
  | some true => { op with deprecated := some true }
  | _ => op

/-- `metadata-checks.ts` `checkTags`: the stored tags (kept flat here, as
`flattenDeep` leaves them) are appended. -/
def checkTags (m : MetaDict) (op : BaseOperationInfo) : BaseOperationInfo :=
  match m.tags with
  | some l => { op with tags := op.tags ++ l }
  | none => op

/-- `metadata-checks.ts` `checkSecuritySchemes`: spread-merged by scheme
name. -/
def checkSecuritySchemes (m : MetaDict) (op : BaseOperationInfo) : BaseOperationInfo :=
  match m.securitySchemes with
  | some l => { op with securitySchemes := objAssign op.securitySchemes l }
  | none => op

/-- `metadata-checks.ts` `checkParameters`: spread-merged by parameter
name. -/
def checkParameters (m : MetaDict) (op : BaseOperationInfo) : BaseOperationInfo :=
  match m.parameters with
  | some l => { op with parameters := objAssign op.parameters l }
  | none => op

/-- `metadata-checks.ts` `checkModels`: list concatenation. -/
def checkModels (m : MetaDict) (op : BaseOperationInfo) : BaseOperationInfo :=
  match m.modelsToParse with
  | some l => { op with modelsToParse := op.modelsToParse ++ l }
  | none => op

/-- `metadata-checks.ts` `checkOperationInfo`: `Object.assign(op, info)` for
the keys the `Operation` decorator stores. -/
def checkOperationInfo (m : MetaDict) (op : OperationInfo) : OperationInfo :=
  match m.operationInfo with
  | some info =>
      { op with
        summary := info.summary <|> op.summary
        description := info.description <|> op.description
        base := { op.base with deprecated := info.deprecated <|> op.base.deprecated }
        externalDocs := info.externalDocs <|> op.externalDocs
        responses := info.responses.getD op.responses }
  | none => op

/-- `metadata-checks.ts` `checkRequestBody`. -/
def checkRequestBody (m : MetaDict) (op : OperationInfo) : OperationInfo :=
  match m.requestBody with
  | some rb => { op with requestBody := some rb }
  | none => op

/-- `metadata-checks.ts` `checkParentMetadata`: checks ignore first, and
once the ignore flag is set short-circuits every further merge; otherwise
merges tags, parameters, path chunk, deprecation, security schemes and
pending models, in that order. -/
def checkParentMetadata (m : MetaDict) (baseOpInfo : BaseOperationInfo) :
    BaseOperationInfo :=
  let b := checkIgnore m baseOpInfo
  if b.ignore then b
  else
    checkModels m (checkSecuritySchemes m (checkDeprecated m
      (checkPathChunks m (checkParameters m (checkTags m b)))))

/-- `metadata-checks.ts` `checkEndpointMetadata`: same ignore short-circuit,
then operation info, parameters, path chunk, tags, deprecation, security
schemes, pending models. -/
def checkEndpointMetadata (m : MetaDict) (op : OperationInfo) : OperationInfo :=
  let op1 := { op with base := checkIgnore m op.base }
  if op1.base.ignore then op1
  else
    let op2 := checkOperationInfo m op1
    { op2 with base :=
        checkModels m (checkSecuritySchemes m (checkDeprecated m (checkTags m
          (checkPathChunks m (checkParameters m op2.base))))) }

/-- `metadata-checks.ts` `checkEndpointArgumentMetadata`: request body,
parameters, security schemes, pending models — with no ignore check. -/
def checkEndpointArgumentMetadata (m : MetaDict) (op : OperationInfo) : OperationInfo :=
  let op1 := checkRequestBody m op
  { op1 with base :=
      checkModels m (checkSecuritySchemes m (checkParameters m op1.base)) }

/-- `utils/index.ts` `MethodIntToString`: the framework's method constants
(note `5` is unmapped). -/
def MethodIntToString (i : Nat) : Option String :=
  match i with
  | 0 => some "get"
  | 1 => some "post"
  | 2 => some "put"
  | 3 => some "delete"
  | 4 => some "patch"
  | 6 => some "options"
  | 7 => some "head"
  | _ => none

/-- `Voca.trim(ret, '/')`: strip leading and trailing slashes. -/
def trimSlashes (s : String) : String :=
  ⟨(((s.data.dropWhile (· = '/')).reverse.dropWhile (· = '/')).reverse)⟩

/-- A character the path-parameter pattern `[a-z0-9]+` with the `i` flag
accepts. -/
def isPathParamChar (c : Char) : Bool :=
  (97 ≤ c.toNat && c.toNat ≤ 122) || (65 ≤ c.toNat && c.toNat ≤ 90) ||
    (48 ≤ c.toNat && c.toNat ≤ 57)

/-- `ret.replace(/:([a-z0-9]+)/gi, "{$1}")`: every colon followed by a
nonempty alphanumeric run becomes the run in braces. -/
def replaceColonParams : List Char → List Char
  | [] => []
  | c :: rest =>
      if c = ':' then
        let run := rest.takeWhile isPathParamChar
        if run.isEmpty then c :: replaceColonParams rest
        else ('\x7b' :: run) ++ ('\x7d' :: replaceColonParams (rest.drop run.length))
      else c :: replaceColonParams rest
termination_by l => l.length
decreasing_by
  · simp
  · simp only [List.length_drop, List.length_cons]
    omega
  · simp

/-- `scanner/index.ts` `convertPathForOpenAPI`: join the chunks with `/`,
trim slashes, rewrite `:name` segments to `{name}`, and prefix `/`. -/
def convertPathForOpenAPI (pathChunks : List String) : String :=
  let ret := String.intercalate "/" pathChunks
  let ret := trimSlashes ret
  let ret : String := ⟨replaceColonParams ret.data⟩
  "/" ++ ret

/-- `scanner/index.ts` `stripNullsAndUndefinedFromObject`, applied to the
accumulated security schemes: entries with a null scope list are dropped. -/
def stripNullsAndUndefinedFromObject (l : List (String × Option (List String))) :
    List (String × List String) :=
  l.filterMap fun kv =>
    match kv.2 with
    | some v => some (kv.1, v)
    | none => none

/-- The document builder: the growing paths object and component-schema
object of `rootDoc`. -/
structure OpenapiBuilder where
  paths : Paths
  schemas : Schemas

/-- A candidate handler function of a controller: its name, its own
metadata (`getAllMetadata(endpoint)`) and its argument metadata
(`getAllParameterMetadata(target, endpoint.name)`). -/
structure EndpointDef where
  name : String
  meta : MetaDict
  argMeta : MetaDict

/-- `scanner/index.ts` `scanEndpoint`: skip when there is no numeric
`method` metadata or the endpoint itself carries a truthy ignore flag;
otherwise build the `OperationInfo` by spreading the enclosing scope's base
info, run the endpoint and argument metadata checks, assemble the
`OperationObject`, ensure every pending model into the components section,
convert the path, resolve the method name (failing on an unmapped number)
and register the operation. -/
def scanEndpoint (env : List ModelCtor) (builder : OpenapiBuilder)
    (endpoint : EndpointDef) (baseOpInfo : BaseOperationInfo) :
    Except JsError OpenapiBuilder :=
  match endpoint.meta.method with
  | none => .ok builder
  | some methodIdx =>
      if endpoint.meta.ignore = some true then .ok builder
      else
        let opInfo : OperationInfo :=
          ⟨baseOpInfo, endpoint.name, methodIdx, none, none, none, none, []⟩
        let opInfo := checkEndpointMetadata endpoint.meta opInfo
        let opInfo := checkEndpointArgumentMetadata endpoint.argMeta opInfo
        let oasOperation : OperationObject :=
          ⟨opInfo.base.tags, opInfo.name, opInfo.base.deprecated, opInfo.summary,
           opInfo.description, opInfo.externalDocs,
           opInfo.base.parameters.map Prod.snd, opInfo.requestBody, opInfo.responses,
           [stripNullsAndUndefinedFromObject opInfo.base.securitySchemes]⟩
        match ensureChain env builder.schemas opInfo.base.modelsToParse with
        | .error e => .error e
        | .ok schemas2 =>
            let adjustedPath := convertPathForOpenAPI opInfo.base.pathChunks
            match MethodIntToString opInfo.nestMethodIndex with
            | none => .error (.unrecognizedNestMethodNumber (toString opInfo.nestMethodIndex))
            | some openapiMethod =>
                match addOperation builder.paths adjustedPath openapiMethod oasOperation with
                | (.error e, _) => .error e
                | (.ok (), ps2) => .ok ⟨ps2, schemas2⟩

/-- The loop of `scanController` over the controller's candidate handler
functions. -/
def scanEndpointList (env : List ModelCtor) (builder : OpenapiBuilder)
    (endpoints : List EndpointDef) (baseOpInfo : BaseOperationInfo) :
    Except JsError OpenapiBuilder :=
  match endpoints with
  | [] => .ok builder
  | e :: rest =>
      match scanEndpoint env builder e baseOpInfo with
      | .error err => .error err
      | .ok b2 => scanEndpointList env b2 rest baseOpInfo

/-- A controller as the scanner sees it: its class metadata and its
candidate handler functions (own prototype properties, constructor
excluded, function-valued). -/
structure ControllerDef where
  meta : MetaDict
  endpoints : List EndpointDef

/-- `scanner/index.ts` `scanController`: clone the enclosing base info,
merge the controller's own metadata via `checkParentMetadata`, and scan each
candidate endpoint against the result. -/
def scanController (env : List ModelCtor) (builder : OpenapiBuilder)
    (controller : ControllerDef) (baseOpInfo : BaseOperationInfo) :
    Except JsError OpenapiBuilder :=
  let newBaseOpInfo := checkParentMetadata controller.meta baseOpInfo
  scanEndpointList env builder controller.endpoints newBaseOpInfo

/-! ### The validation interceptor (`openapi-validation.interceptor.ts`)

The compiled Ajv validators are modelled as the wrapped schemas themselves
plus an executable semantics `runWrappedValidator` of Ajv validation with
`coerceTypes: true` on the wrapper object `{ __$wrap__: value }`, following
the spec's description of the external validation library: the real schema
sits one level under the synthetic wrapper property so that a top-level
primitive can be coerced, a missing wrapped value fails the wrapper's
`required`, and type coercion converts between strings, numbers, booleans
and null per the library's documented coercion table. -/

/-- A JSON value as the web framework hands it to the interceptor. -/
inductive JVal where
  | null
  | bool (b : Bool)
  | num (n : Int)
  | str (s : String)
  | obj (fields : List (String × JVal))

/-- One Ajv validation error: the failing data path and the message. -/
structure AjvError where
  dataPath : String
  message : String

/-- `INTERNAL_WRAPPER`: the synthetic wrapper property name. -/
def INTERNAL_WRAPPER : String := "__$wrap__"

/-- A compiled validator: the schema that sat under the wrapper property in
`wrapSpecifiedSchema`'s output (the wrapper object itself —
`{type:"object", required:[__$wrap__], properties:{__$wrap__: inner}}` — is
implied). -/
structure WrappedSchema where
  inner : VSchema

/-- `wrapSpecifiedSchema`: clone the schema, rewrite a bare `$ref` to
resolve against `root-document.json`, default an absent schema to `{}`, and
nest the result under the wrapper property. -/
def wrapSpecifiedSchema (schema : Option VSchema) : WrappedSchema :=
  ⟨match schema with
    | some (.vref r) => .vref ("root-document.json" ++ r)
    | some s => s
    | none => .vempty⟩

/-- JS `Number(string)` restricted to optionally-signed decimal integer
literals, the shape the coercion scenarios exercise; any other string is
`NaN` (`none`). -/
def jsStringToNumber (s : String) : Option Int :=
  let digits := fun l : List Char => l ≠ [] ∧ l.all fun c => 48 ≤ c.toNat && c.toNat ≤ 57
  let toN : List Char → Nat := fun l => l.foldl (fun a c => a * 10 + (c.toNat - 48)) 0
  match s.data with
  | '-' :: rest => if digits rest then some (-(toN rest : Int)) else none
  | l => if digits l then some (toN l : Int) else none

/-- The non-reference schemas Ajv's coercion table applies to. -/
def coercePrim (sch : VSchema) (path : String) (v : JVal) : Except (List AjvError) JVal :=
  match sch with
  | .vempty => .ok v
  | .vnumber =>
      match v with
      | .num n => .ok (.num n)
      | .str s =>
          match jsStringToNumber s with
          | some n => .ok (.num n)
          | none => .error [⟨path, "should be number"⟩]
      | .bool b => .ok (.num (if b then 1 else 0))
      | .null => .ok (.num 0)
      | .obj _ => .error [⟨path, "should be number"⟩]
  | .vstring =>
      match v with
      | .str s => .ok (.str s)
      | .num n => .ok (.str (toString n))
      | .bool b => .ok (.str (if b then "true" else "false"))
      | .null => .ok (.str "")
      | .obj _ => .error [⟨path, "should be string"⟩]
  | .vboolean =>
      match v with
      | .bool b => .ok (.bool b)
      | .str "true" => .ok (.bool true)
      | .str "false" => .ok (.bool false)
      | .num 1 => .ok (.bool true)
      | .num 0 => .ok (.bool false)
      | .null => .ok (.bool false)
      | _ => .error [⟨path, "should be boolean"⟩]
  | .vref _ => .error [⟨path, "unresolved reference"⟩]

/-- Run a compiled (wrapped) validator on the raw value found in the
request: an absent value fails the wrapper's `required`; otherwise the
inner schema validates and coerces it (a `$ref` resolving through the
document `doc` to its target schema). On success the coerced value — what
Ajv left under the wrapper property — is returned. -/
def runWrappedValidator (doc : String → Option VSchema) (w : WrappedSchema)
    (value : Option JVal) : Except (List AjvError) JVal :=
  match value with
  | none =>
      .error [⟨"", "should have required property " ++ INTERNAL_WRAPPER⟩]
  | some v =>
      match w.inner with
      | .vref r =>
          match doc r with
          | some target => coercePrim target ("." ++ INTERNAL_WRAPPER) v
          | none => .error [⟨"." ++ INTERNAL_WRAPPER, "unresolved reference"⟩]
      | sch => coercePrim sch ("." ++ INTERNAL_WRAPPER) v

/-- JS `String.prototype.toLowerCase` restricted to ASCII. -/
def toLowerCase (s : String) : String :=
  ⟨s.data.map fun c =>
    if 65 ≤ c.toNat ∧ c.toNat ≤ 90 then Char.ofNat (c.toNat + 32) else c⟩

/-- An express request as the interceptor reads and mutates it:
`request.header('content-type')`, `request.body`, and the `headers`,
`query` and `params` collections. -/
structure Request where
  contentTypeHeader : Option String
  body : Option JVal
  headers : List (String × JVal)
  query : List (String × JVal)
  params : List (String × JVal)

/-- `getParameterFromRequest`: fetch the raw value from the collection the
parameter's `in` names; cookies throw; the value is `none` when the key is
absent (JS `undefined`). -/
def getParameterFromRequest (request : Request) (parameter : ParameterObject) :
    Except JsError (Option JVal) :=
  match parameter.locIn with
  | "cookie" => .error (.generic "Cookie parameters are unsupported.")
  | "header" => .ok (lookupStr request.headers (toLowerCase parameter.name))
  | "query" => .ok (lookupStr request.query parameter.name)
  | "path" => .ok (lookupStr request.params parameter.name)
  | _ => .ok none

/-- `setParameterInRequest`: write the coerced value back into the same
request collection, in place. -/
def setParameterInRequest (request : Request) (parameter : ParameterObject)
    (value : JVal) : Except JsError Request :=
  match parameter.locIn with
  | "cookie" => .error (.generic "Cookie parameters are unsupported.")
  | "header" =>
      .ok { request with headers := upsert request.headers (toLowerCase parameter.name) value }
  | "query" => .ok { request with query := upsert request.query parameter.name value }
  | "path" => .ok { request with params := upsert request.params parameter.name value }
  | _ => .ok request

/-- `ValidationBody` of the interceptor's cache. -/
structure ValidationBody where
  argPosition : Nat
  bodyContentTypes : List String
  validators : List (String × WrappedSchema)

/-- `ValidationParameter` of the interceptor's cache. -/
structure ValidationParameter where
  name : String
  argPosition : Nat
  parameter : ParameterObject
  validator : WrappedSchema

/-- `ValidationCacheData`. -/
structure ValidationCacheData where
  body : Option ValidationBody
  parameters : List ValidationParameter

/-- The body content types sorted by the interceptor's comparator:
`application/json`-prefixed types first, the rest by string order (the JS
`Array.prototype.sort` call modelled as an insertion sort by the
comparator-induced order). -/
def contentTypeLE (a b : String) : Bool :=
  if a.startsWith "application/json" then true
  else if b.startsWith "application/json" then false
  else decide (a ≤ b)

def insertSortedBy (le : String → String → Bool) (x : String) :
    List String → List String
  | [] => [x]
  | y :: rest => if le x y then x :: y :: rest else y :: insertSortedBy le x rest

def sortContentTypes (l : List String) : List String :=
  l.foldr (insertSortedBy contentTypeLE) []

/-- `buildValidationData`: from the endpoint's metadata, compile one
validator per request-body content type (when both the body index and the
body object are present) and one per declared parameter, each wrapped by
`wrapSpecifiedSchema`. -/
def buildValidationData (endpointMetadata : MetaDict) : ValidationCacheData :=
  let body : Option ValidationBody :=
    match endpointMetadata.requestIndex, endpointMetadata.requestBody with
    | some requestBodyIndex, some requestBody =>
        some ⟨requestBodyIndex,
          sortContentTypes (requestBody.content.map Prod.fst),
          requestBody.content.map fun t => (t.1, wrapSpecifiedSchema t.2)⟩
    | _, _ => none
  let parameters : List ValidationParameter :=
    (endpointMetadata.parameterByIndex.getD []).map fun t =>
      ⟨t.2.name, t.1, t.2, wrapSpecifiedSchema t.2.schema⟩
  ⟨body, parameters⟩

/-- The interceptor's per-handler validator cache, keyed by handler
identity. -/
abbrev VCache := List (Nat × ValidationCacheData)

/-- What the interceptor reads off the `ExecutionContext`: the handler's
identity and the endpoint metadata `buildValidationData` consumes. -/
structure ExecutionCtx where
  handlerId : Nat
  meta : MetaDict

/-- The cache-resolution step at the top of `intercept` (lines 111–115 of
the source): look the handler up in `validationCache`; on a miss, build the
validation data. The write back into the cache —
`this.validationCache.set(handler, validationData)` — is commented out in
the source, so the returned cache is the input cache unchanged; the third
component records whether this call had to (re)build. -/
def resolveValidationData (cache : VCache) (ctx : ExecutionCtx) :
    ValidationCacheData × VCache × Bool :=
  match lookupNat cache ctx.handlerId with
  | some validationData => (validationData, cache, false)
  | none => (buildValidationData ctx.meta, cache, true)

/-- How an intercepted request ends: a short-circuit response written
through `observableResponse` (its JSON body's `errors` list and status
code, plus the request object as mutated so far), normal continuation into
the handler (`next.handle()`) with the mutated request, or a thrown
exception. -/
inductive InterceptOutcome where
  | response (errors : List String) (status : Nat) (req : Request)
  | proceed (req : Request)
  | raised (e : JsError)

/-- JS `String.prototype.replace` with a string pattern: replace the first
occurrence only. -/
def replaceFirstAux (pat rep : List Char) : List Char → List Char
  | [] => []
  | c :: rest =>
      if pat.isPrefixOf (c :: rest) then rep ++ (c :: rest).drop pat.length
      else c :: replaceFirstAux pat rep rest

def replaceFirst (s pat rep : String) : String :=
  ⟨replaceFirstAux pat.data rep.data s.data⟩

/-- One line of the 400 response's `errors` list:
`"<label>: <data path with the wrapper stripped> <message>"`. -/
def formatValidationError (e : String × AjvError) : String :=
  e.1 ++ ": " ++ replaceFirst e.2.dataPath ("." ++ INTERNAL_WRAPPER ++ ".") "" ++
    " " ++ e.2.message

/-- The `for (const validationParameter of validationData.parameters)` loop
of `intercept`: fetch the raw value, validate and coerce it; on success
write the coerced value back into the request in place, on failure collect
the errors labelled with the parameter's name. A thrown error (cookie
location) propagates. -/
def validateParamsLoop (doc : String → Option VSchema) :
    List ValidationParameter → Request → List (String × AjvError) →
      Except JsError (Request × List (String × AjvError))
  | [], req, errors => .ok (req, errors)
  | vp :: rest, req, errors =>
      match getParameterFromRequest req vp.parameter with
      | .error e => .error e
      | .ok inValue =>
          match runWrappedValidator doc vp.validator inValue with
          | .ok coerced =>
              match setParameterInRequest req vp.parameter coerced with
              | .error e => .error e
              | .ok req2 => validateParamsLoop doc rest req2 errors
          | .error es =>
              validateParamsLoop doc rest req
                (errors ++ es.map fun e => ("parameter '" ++ vp.name ++ "'", e))

/-- The tail of `intercept` after the body stage: run the parameter loop,
then either short-circuit with the 400 response carrying every collected
error, or proceed into the handler. -/
def finishIntercept (doc : String → Option VSchema)
    (validationData : ValidationCacheData) (req : Request) (cache : VCache)
    (errors0 : List (String × AjvError)) : InterceptOutcome × VCache :=
  match validateParamsLoop doc validationData.parameters req errors0 with
  | .error e => (.raised e, cache)
  | .ok (req2, errors) =>
      if errors.isEmpty then (.proceed req2, cache)
      else (.response (errors.map formatValidationError) 400 req2, cache)

/-- `OpenapiValidationInterceptor.intercept`: resolve the validation data
(the cache is never written, see `resolveValidationData`); when a request
body is declared, negotiate the content type — the header, defaulting to
`application/json` — and fail immediately with the 415 response when no
validator was compiled for it; otherwise validate the wrapped body,
collecting failures under the label `request body`; then validate, coerce
and write back each declared parameter, and finally either return the 400
response listing every collected error or let the request proceed. -/
def intercept (doc : String → Option VSchema) (cache : VCache)
    (ctx : ExecutionCtx) (req : Request) : InterceptOutcome × VCache :=
  let r := resolveValidationData cache ctx
  let validationData := r.1
  let cache1 := r.2.1
  match validationData.body with
  | some body =>
      let contentType := req.contentTypeHeader.getD "application/json"
      match lookupStr body.validators contentType with
      | none =>
          (.response ["Unsupported body content type: " ++ contentType] 415 req,
            cache1)
      | some bodyValidator =>
          let errors0 : List (String × AjvError) :=
            match runWrappedValidator doc bodyValidator req.body with
            | .ok _ => []
            | .error es => es.map fun e => ("request body", e)
          finishIntercept doc validationData req cache1 errors0
  | none => finishIntercept doc validationData req cache1 []

/-- A property metadata record that `buildSchemaFromAnnotatedProp` treats as
a property of the schema (the `isProp` test of the source). -/
def isPropMeta (pm : PropMeta) : Bool :=
  pm.rawProp.isSome || pm.prop.isSome || pm.arrayProp.isSome

/-- The names, in declaration order, of the properties that carry property
metadata together with a truthy required flag — exactly the names the
builder appends to the schema's `required` list. -/
def requiredNames (props : List (String × PropMeta)) : List String :=
  (props.filter fun p => isPropMeta p.2 && decide (p.2.required = some true)).map Prod.fst

/-! ### Concrete inputs used by witnesses and counterexamples -/

/-- Scalar prop args with every member absent (`Prop()` with defaults). -/
def noArgs : ScalarPropArgs := ⟨none, none, []⟩

/-- An empty component-schema document for the validator's `$ref`
resolution. -/
def docEmpty : String → Option VSchema := fun _ => none

/-- Endpoint metadata declaring a request body for `application/json`
only. -/
def bodyMetaC6 : MetaDict :=
  { emptyMeta with
      requestIndex := some 0
      requestBody := some ⟨[("application/json", some .vempty)]⟩ }

/-- The execution context of a handler with the json-only body. -/
def ctxC6 : ExecutionCtx := ⟨3, bodyMetaC6⟩

/-- A request arriving with `content-type: application/xml`. -/
def reqC6 : Request := ⟨some "application/xml", some (.obj []), [], [], []⟩

/-- A query parameter `q` declared `{type:"number"}`. -/
def qParam : ParameterObject := ⟨"q", "query", some .vnumber⟩

/-- The execution context of a handler declaring only the parameter `q`. -/
def ctxC7 : ExecutionCtx := ⟨1, { emptyMeta with parameterByIndex := some [(0, qParam)] }⟩

/-- A request whose raw query gives `q` the string `"42"`. -/
def reqC7ok : Request := ⟨none, none, [], [("q", .str "42")], []⟩

/-- A request whose raw query gives `q` the string `"abc"`. -/
def reqC7bad : Request := ⟨none, none, [], [("q", .str "abc")], []⟩

/-- Number-typed query parameters `a` and `b`. -/
def pA : ParameterObject := ⟨"a", "query", some .vnumber⟩

def pB : ParameterObject := ⟨"b", "query", some .vnumber⟩

/-- The execution context of a handler declaring parameters `a` then `b`. -/
def ctxC10 : ExecutionCtx := ⟨2, { emptyMeta with parameterByIndex := some [(0, pA), (1, pB)] }⟩

/-- The execution context of a handler with no body and no parameters. -/
def ctxC1 : ExecutionCtx := ⟨7, emptyMeta⟩

/-- A bare request. -/
def reqC1 : Request := ⟨none, none, [], [], []⟩

/-- A constructor with neither `@ModelRaw` nor `@Model` metadata. -/
def envC9 : List ModelCtor := [⟨"Bare", none, none, []⟩]

/-- A model whose only property is declared through `ArrayProp` (which
writes no required flag). -/
def envC8 : List ModelCtor :=
  [⟨"M", none, some ⟨[]⟩,
    [("xs", ArrayProp ⟨.refObj "#/components/schemas/X", []⟩ .jarray)]⟩]

/-- A model exercising every property decorator: a scalar prop with the
default required flag, a scalar prop explicitly not required, a raw prop
with the default required flag, and an array prop. -/
def ctorC8w : ModelCtor :=
  ⟨"W", none, some ⟨[]⟩,
    [("p1", Prop' noArgs true .jstring),
     ("p2", Prop' noArgs false .jstring),
     ("p3", PropRaw (OutSchema.typed "string") true .jstring),
     ("p4", ArrayProp ⟨.refObj "#/components/schemas/X", []⟩ .jarray)]⟩

def envC8w : List ModelCtor := [ctorC8w]

/-- The schema built for the model of `envC8w`. -/
def schC8w : OutSchema :=
  .mk none (some "object") none none none none none
    (some [("p1", OutSchema.typed "string"), ("p2", OutSchema.typed "string"),
           ("p3", OutSchema.typed "string"),
           ("p4", .mk none (some "array") none
             (some (OutSchema.refObj "#/components/schemas/X")) none none none none none [])])
    (some ["p1", "p3"]) []

/-- An operation object carrying only an `operationId`. -/
def emptyOp (id : String) : OperationObject :=
  ⟨[], id, none, none, none, none, [], none, [], []⟩

/-- Two mutually referential annotated models: `A` has a required property
`b` of design type `B`, and `B` a required property `a` of design type
`A`. -/
def envW : List ModelCtor :=
  [⟨"A", none, some ⟨[]⟩, [("b", Prop' noArgs true (.jctor 1))]⟩,
   ⟨"B", none, some ⟨[]⟩, [("a", Prop' noArgs true (.jctor 0))]⟩]

/-- The schema `ensureSchemaFromType` builds for each model of `envW`. -/
def schW (propName otherName : String) : OutSchema :=
  .mk none (some "object") none none none none none
    (some [(propName, schemaReference otherName)]) (some [propName]) []

/-- The schemas object after expanding `envW` starting from model `A`. -/
def schemasW : Schemas := [("A", schW "b" "B"), ("B", schW "a" "A")]

/-- Controller metadata carrying the `Ignore` flag (and a path prefix). -/
def ctrlMetaC2 : MetaDict := { emptyMeta with ignore := some true, path := some "ctl" }

/-- Endpoint metadata of a plain `GET` handler mounted at `x`, with no
ignore flag of its own. -/
def epMetaC2 : MetaDict := { emptyMeta with method := some 0, path := some "x" }

/-- The candidate handler `getThing` of the ignored controller. -/
def epC2 : EndpointDef := ⟨"getThing", epMetaC2, emptyMeta⟩

/-- A controller flagged with `Ignore` holding one real endpoint. -/
def ctrlC2 : ControllerDef := ⟨ctrlMetaC2, [epC2]⟩

/-- A builder with empty paths and components. -/
def emptyBuilder : OpenapiBuilder := ⟨[], []⟩

/-- The operation the scanner registers for `getThing` despite the
controller-scope ignore: metadata merging was short-circuited, so it has no
tags, no controller path prefix, and an empty security requirement. -/
def opC2 : OperationObject := ⟨[], "getThing", none, none, none, none, [], none, [], [[]]⟩

/-! ## Theorems for the claims -/

/-- C3: `addOperation(path, method, operation)` fails with
`OperationAlreadyExistsError` exactly when `(path, method)` is already
registered, and on that failing call the paths object — including the
previously stored operation for the pair — is returned untouched; on a
successful call the path entry is created on first use and the operation is
stored under the method. -/
theorem addOperation_unique (ps : Paths) (path method : String) (operation : OperationObject) :
    (∀ op0, getOp ps path method = some op0 →
      addOperation ps path method operation =
        (.error (.operationAlreadyExists (toUpperCase method ++ " " ++ path)), ps) ∧
      getOp (addOperation ps path method operation).2 path method = some op0) ∧
    (getOp ps path method = none →
      (addOperation ps path method operation).1 = .ok () ∧
      getOp (addOperation ps path method operation).2 path method = some operation) := by
  constructor
  · intro op0 h
    unfold getOp at h
    cases hp : lookupStr ps path with
    | none => rw [hp] at h; cases h
    | some item =>
        rw [hp] at h
        simp only at h
        have hfail : addOperation ps path method operation =
            (.error (.operationAlreadyExists (toUpperCase method ++ " " ++ path)), ps) := by
          unfold addOperation
          rw [hp]
          simp only [h]
        refine ⟨hfail, ?_⟩
        rw [hfail]
        unfold getOp
        rw [hp]
        simp only [h]
  · intro h
    unfold getOp at h
    cases hp : lookupStr ps path with
    | none =>
        have hps2 : lookupStr (upsert ps path ([] : PathItem)) path = some [] :=
          lookupStr_upsert_self ps path []
        unfold addOperation
        rw [hp]
        refine ⟨by simp, ?_⟩
        unfold getOp
        rw [lookup_setOpInPath_self hps2 method operation]
        simp [upsert, lookupStr]
    | some item =>
        rw [hp] at h
        simp only at h
        unfold addOperation
        rw [hp]
        simp only [h]
        refine ⟨by simp, ?_⟩
        unfold getOp
        rw [lookup_setOpInPath_self hp method operation]
        simp [lookupStr_upsert_self]

/-- C3 witness: on a paths object already holding `GET /a`, a second
registration fails with the operation-already-exists error and leaves the
stored operation untouched; on the empty paths object it succeeds. -/
theorem addOperation_unique_witness :
    (addOperation [("/a", [("get", emptyOp "first")])] "/a" "get" (emptyOp "second") =
      (.error (.operationAlreadyExists (toUpperCase "get" ++ " " ++ "/a")),
        [("/a", [("get", emptyOp "first")])]) ∧
      getOp (addOperation [("/a", [("get", emptyOp "first")])] "/a" "get" (emptyOp "second")).2
        "/a" "get" = some (emptyOp "first")) ∧
    ((addOperation [] "/a" "get" (emptyOp "first")).1 = .ok () ∧
      getOp (addOperation [] "/a" "get" (emptyOp "first")).2 "/a" "get" = some (emptyOp "first")) :=
  ⟨(addOperation_unique [("/a", [("get", emptyOp "first")])] "/a" "get"
      (emptyOp "second")).1 (emptyOp "first") rfl,
   (addOperation_unique [] "/a" "get" (emptyOp "first")).2 rfl⟩

/-- C4: `ensureSchemaFromType` is idempotent and produces exactly one entry
per constructor name: starting from a schemas object with unique keys, after
`ensureSchemaFromType(C)` succeeds — and after any further interleaving of
ensure calls for other constructors — a repeated call for `C` returns the
schemas object unchanged (the presence check fires before any rebuild), and
`C`'s name occurs exactly once among the component-schema keys. The
recursive expansion itself provably terminates for every model graph,
self- or mutually-referential ones included, because `ensureList` is a
total function. -/
theorem ensureSchemaFromType_idempotent
    (env : List ModelCtor) (s s1 s2 : Schemas) (t : Nat) (others : List Nat)
    (hnd : (keysOf s).Nodup)
    (h1 : ensureSchemaFromType env s t = .ok s1)
    (h2 : ensureChain env s1 others = .ok s2) :
    ensureSchemaFromType env s1 t = .ok s1 ∧
    ensureSchemaFromType env s2 t = .ok s2 ∧
    (keysOf s2).count (ctorName env t) = 1 := by
  obtain ⟨hsub1, hnd1f, hmem1⟩ := ensureSchemaFromType_inv h1
  obtain ⟨hsub2, hnd2f⟩ := ensureChain_inv h2
  have hnd2 : (keysOf s2).Nodup := hnd2f (hnd1f hnd)
  have hmem2 : ctorName env t ∈ keysOf s2 := hsub2 _ hmem1
  exact ⟨ensureSchemaFromType_of_mem hmem1, ensureSchemaFromType_of_mem hmem2,
    List.count_eq_one_of_mem hnd2 hmem2⟩

/-- C4 witness: expanding the mutually recursive pair `A ↔ B` from the empty
schemas object terminates with both schemas registered; re-ensuring `A`
(directly, and after further ensure calls for `A` and `B`) leaves the object
unchanged, and `A` has exactly one entry. -/
theorem ensureSchemaFromType_idempotent_witness :
    ensureSchemaFromType envW schemasW 0 = .ok schemasW ∧
    ensureSchemaFromType envW schemasW 0 = .ok schemasW ∧
    (keysOf schemasW).count (ctorName envW 0) = 1 :=
  ensureSchemaFromType_idempotent envW [] schemasW schemasW 0 [0, 1]
    (by simp [keysOf])
    (by simp [ensureSchemaFromType, ensureList, envW, buildSchemaFromAnnotatedType,
      buildPropsLoop, buildSchemaFromAnnotatedProp, inferSchema, ctorName, keysOf,
      upsert, schemaReference, OutSchema.refObj, Prop', noArgs, OutSchema.spread,
      OutSchema.ref, OutSchema.countKeys, schemasW, schW])
    (by simp [ensureChain, ensureSchemaFromType, ensureList, envW, ctorName,
      keysOf, schemasW, schW])

/-- C2 (code bug): an `Ignore` flag on the enclosing controller does NOT
keep the endpoint out of the document. `checkParentMetadata` duly sets the
inherited `ignore` flag (first conjunct), and `checkEndpointMetadata`
short-circuits the metadata merge because of it, but `scanEndpoint` only
consults the endpoint's own `OPENAPI_IGNORE` metadata before registering —
so the scan still adds a (metadata-stripped) operation under `GET /` to the
paths object (second and third conjuncts), where the claim requires no
entry at all. -/
theorem scanEndpoint_controller_ignore_bug :
    (checkParentMetadata ctrlMetaC2 emptyBaseOpInfo).ignore = true ∧
    scanController [] emptyBuilder ctrlC2 emptyBaseOpInfo =
      .ok ⟨[("/", [("get", opC2)])], []⟩ ∧
    getOp [("/", [("get", opC2)])] "/" "get" = some opC2 := by
  refine ⟨rfl, ?_, rfl⟩
  simp [scanController, scanEndpointList, scanEndpoint, checkParentMetadata,
    checkIgnore, checkEndpointMetadata, checkEndpointArgumentMetadata,
    checkRequestBody, checkModels, checkSecuritySchemes, checkParameters,
    ctrlMetaC2, epMetaC2, epC2, ctrlC2, emptyMeta, emptyBaseOpInfo, emptyBuilder,
    ensureChain, convertPathForOpenAPI, trimSlashes, replaceColonParams,
    MethodIntToString, addOperation, lookupStr, upsert, setOpInPath, String.intercalate,
    stripNullsAndUndefinedFromObject, objAssign, opC2, getOp]

/-- C5: the schema-inference table. For every pending list: `Number`,
`String`, `Date` and `Boolean` map exactly to `{type:"number"}`,
`{type:"string"}`, `{type:"string",format:"date"}` and `{type:"boolean"}`
with the pending list untouched; `Array`, `Promise` and `Object` always
fail with an `InferenceError`; and every other constructor is appended to
the caller-supplied pending list while a
`{$ref:"#/components/schemas/<ConstructorName>"}` object is returned. -/
theorem inferSchema_table (env : List ModelCtor) (pending : List Nat) :
    inferSchema env .jnumber pending = .ok (OutSchema.typed "number", pending) ∧
    inferSchema env .jstring pending = .ok (OutSchema.typed "string", pending) ∧
    inferSchema env .jdate pending = .ok (OutSchema.typedFmt "string" "date", pending) ∧
    inferSchema env .jboolean pending = .ok (OutSchema.typed "boolean", pending) ∧
    (∃ m, inferSchema env .jarray pending = .error (.inference m)) ∧
    (∃ m, inferSchema env .jpromise pending = .error (.inference m)) ∧
    (∃ m, inferSchema env .jobject pending = .error (.inference m)) ∧
    ∀ i, inferSchema env (.jctor i) pending =
      .ok (OutSchema.refObj ("#/components/schemas/" ++ ctorName env i), pending ++ [i]) := by
  refine ⟨rfl, rfl, rfl, rfl, ⟨_, rfl⟩, ⟨_, rfl⟩, ⟨_, rfl⟩, fun i => rfl⟩

/-- C6: for every request of a handler with a declared body, when no
compiled validator exists for the request's content type (the header,
defaulting to `application/json` when absent) the interceptor responds
immediately with the 415 response whose body is a single-string `errors`
list naming the unsupported type — whatever the declared parameters and
body value are, and with the request object still untouched, so the
rejection precedes body-schema and parameter validation alike. -/
theorem intercept_unsupported_media_type
    (doc : String → Option VSchema) (ctx : ExecutionCtx) (req : Request)
    (b : ValidationBody)
    (hb : (buildValidationData ctx.meta).body = some b)
    (hct : lookupStr b.validators (req.contentTypeHeader.getD "application/json") = none) :
    intercept doc [] ctx req =
      (.response ["Unsupported body content type: " ++
        (req.contentTypeHeader.getD "application/json")] 415 req, []) := by
  unfold intercept
  simp [resolveValidationData, lookupNat, hb, hct]

/-- C6 witness: a body declared only for `application/json` arriving with
`content-type: application/xml` is rejected with the 415 response. -/
theorem intercept_unsupported_media_type_witness :
    intercept docEmpty [] ctxC6 reqC6 =
      (.response ["Unsupported body content type: " ++ "application/xml"] 415 reqC6, []) :=
  intercept_unsupported_media_type docEmpty ctxC6 reqC6
    ⟨0, sortContentTypes ["application/json"],
      [("application/json", wrapSpecifiedSchema (some .vempty))]⟩
    rfl rfl

/-- C7: a query parameter declared `{type:"number"}` with raw string input
`"42"` passes validation and the value the handler reads from the query
collection has been rewritten in place to the number `42` before the
request proceeds; raw input `"abc"` fails validation, the request is
short-circuited with a 400 response, and its errors list holds exactly one
entry referencing the parameter's name. -/
theorem intercept_query_number_coercion :
    intercept docEmpty [] ctxC7 reqC7ok =
      (.proceed ⟨none, none, [], [("q", .num 42)], []⟩, []) ∧
    intercept docEmpty [] ctxC7 reqC7bad =
      (.response ["parameter 'q': .__$wrap__ should be number"] 400 reqC7bad, []) := by
  exact ⟨rfl, rfl⟩

/-- C10: coercions already applied are not rolled back when a later
parameter fails. For every pair of raw query strings where the first
coerces to a number and the second does not, the 400 response is produced
with the request's query collection already holding the first parameter's
coerced numeric value (and the second left as its raw string): the request
object is partially mutated on error. -/
theorem intercept_partial_mutation_on_error
    (s1 s2 : String) (n1 : Int)
    (h1 : jsStringToNumber s1 = some n1)
    (h2 : jsStringToNumber s2 = none) :
    intercept docEmpty [] ctxC10 ⟨none, none, [], [("a", .str s1), ("b", .str s2)], []⟩ =
      (.response ["parameter 'b': .__$wrap__ should be number"] 400
        ⟨none, none, [], [("a", .num n1), ("b", .str s2)], []⟩, []) := by
  unfold intercept
  simp [resolveValidationData, lookupNat, buildValidationData, ctxC10, emptyMeta,
    finishIntercept, validateParamsLoop, getParameterFromRequest, pA, pB,
    setParameterInRequest, runWrappedValidator, wrapSpecifiedSchema, coercePrim,
    h1, h2, lookupStr, upsert, formatValidationError, replaceFirst, replaceFirstAux,
    INTERNAL_WRAPPER]

/-- C10 witness: with raw inputs `"42"` for `a` and `"abc"` for `b`, the
400 response carries a request whose query already holds `a ↦ 42`. -/
theorem intercept_partial_mutation_on_error_witness :
    intercept docEmpty [] ctxC10 ⟨none, none, [], [("a", .str "42"), ("b", .str "abc")], []⟩ =
      (.response ["parameter 'b': .__$wrap__ should be number"] 400
        ⟨none, none, [], [("a", .num 42), ("b", .str "abc")], []⟩, []) :=
  intercept_partial_mutation_on_error "42" "abc" 42 rfl rfl

/-- C1 (code bug): the per-handler validator cache is never populated —
the `validationCache.set(handler, validationData)` write is commented out
in `intercept`. On the first call for a handler the cache misses and the
validation data is built (first conjunct), yet the cache afterwards is
still empty (second and third conjuncts), so a second intercept call for
the very same handler misses again and rebuilds (fourth conjunct), where
the claim promises a cache hit with no recompilation. -/
theorem interceptor_cache_never_populated :
    (resolveValidationData [] ctxC1).2.2 = true ∧
    (resolveValidationData [] ctxC1).2.1 = [] ∧
    (intercept docEmpty [] ctxC1 reqC1).2 = [] ∧
    (resolveValidationData (intercept docEmpty [] ctxC1 reqC1).2 ctxC1).2.2 = true := by
  exact ⟨rfl, rfl, rfl, rfl⟩

/-- C9 counterexample: for a constructor with neither raw-override nor
base-info metadata, the model builder throws the plain JS `Error` — not
the library's `DefinitionError` class, as the claim states. -/
theorem modelBuilder_plain_error_counterexample :
    buildSchemaFromAnnotatedType envC9 0 [] =
      .error (.generic "Type 'Bare' lacks @ModelRaw or @Model annotation.") ∧
    ∀ m, buildSchemaFromAnnotatedType envC9 0 [] ≠ .error (.definitionErr m) := by
  refine ⟨rfl, fun m h => ?_⟩
  have h2 : buildSchemaFromAnnotatedType envC9 0 [] =
      .error (.generic "Type 'Bare' lacks @ModelRaw or @Model annotation.") := rfl
  rw [h2] at h
  simp at h

/-- C9 amended: for every constructor carrying no raw-override metadata
entry and no base-info metadata entry, the build fails with the plain
`Error` whose message identifies the type by name, and never returns a
schema for a type not explicitly marked as a model. -/
theorem modelBuilder_missing_annotation_amended
    (env : List ModelCtor) (i : Nat) (c : ModelCtor) (m : List Nat)
    (hc : env.get? i = some c) (hraw : c.raw = none) (hbase : c.base = none) :
    buildSchemaFromAnnotatedType env i m =
      .error (.generic ("Type '" ++ c.name ++ "' lacks @ModelRaw or @Model annotation.")) ∧
    ∀ r, buildSchemaFromAnnotatedType env i m ≠ .ok r := by
  have h : buildSchemaFromAnnotatedType env i m =
      .error (.generic ("Type '" ++ c.name ++ "' lacks @ModelRaw or @Model annotation.")) := by
    unfold buildSchemaFromAnnotatedType
    rw [hc]
    simp [hraw, hbase]
  exact ⟨h, fun r hr => by rw [h] at hr; cases hr⟩

/-- C9 amended witness: the unannotated constructor `Bare` fails with the
plain error naming it and yields no schema. -/
theorem modelBuilder_missing_annotation_amended_witness :
    buildSchemaFromAnnotatedType envC9 0 [] =
      .error (.generic ("Type '" ++ "Bare" ++ "' lacks @ModelRaw or @Model annotation.")) ∧
    ∀ r, buildSchemaFromAnnotatedType envC9 0 [] ≠ .ok r :=
  modelBuilder_missing_annotation_amended envC9 0 ⟨"Bare", none, none, []⟩ [] rfl rfl rfl

theorem buildSchemaFromAnnotatedProp_required (env : List ModelCtor)
    (n : String) (pm : PropMeta) (st st1 : PropFoldState)
    (h : buildSchemaFromAnnotatedProp env n pm st = .ok st1) :
    st1.required =
      if isPropMeta pm && decide (pm.required = some true) then
        some (st.required.getD [] ++ [n])
      else st.required := by
  simp only [buildSchemaFromAnnotatedProp] at h
  split at h
  · split at h
    · cases h
    · cases h
      have hp2 : isPropMeta pm = true := by
        simp only [isPropMeta]
        exact ‹(pm.rawProp.isSome || pm.prop.isSome || pm.arrayProp.isSome) = true›
      rw [hp2, Bool.true_and]
      by_cases hr : pm.required = some true
      · simp [hr]
      · simp [hr]
  · cases h
    have hp2 : isPropMeta pm = false := by
      simp only [isPropMeta]
      simpa using ‹¬(pm.rawProp.isSome || pm.prop.isSome || pm.arrayProp.isSome) = true›
    rw [hp2, Bool.false_and]
    simp

theorem buildPropsLoop_required (env : List ModelCtor) (props : List (String × PropMeta)) :
    ∀ (st st2 : PropFoldState), buildPropsLoop env props st = .ok st2 →
      st2.required = match requiredNames props with
        | [] => st.required
        | l => some (st.required.getD [] ++ l) := by
  induction props with
  | nil =>
      intro st st2 h
      simp only [buildPropsLoop] at h
      cases h
      simp [requiredNames]
  | cons p rest ih =>
      intro st st2 h
      simp only [buildPropsLoop] at h
      cases hstep : buildSchemaFromAnnotatedProp env p.1 p.2 st with
      | error e => rw [hstep] at h; cases h
      | ok st1 =>
          rw [hstep] at h
          simp only at h
          have hres := ih st1 st2 h
          have hreq := buildSchemaFromAnnotatedProp_required env p.1 p.2 st st1 hstep
          by_cases hc : (isPropMeta p.2 && decide (p.2.required = some true)) = true
          · have hnames : requiredNames (p :: rest) = p.1 :: requiredNames rest := by
              simp [requiredNames, List.filter_cons, hc]
            rw [hc] at hreq
            simp only [if_true] at hreq
            rw [hnames, hres, hreq]
            cases hrest : requiredNames rest with
            | nil => simp
            | cons a l => simp
          · have hnames : requiredNames (p :: rest) = requiredNames rest := by
              simp only [requiredNames, List.filter_cons]
              rw [Bool.not_eq_true] at hc
              rw [hc]
              simp
            rw [Bool.not_eq_true] at hc
            rw [hc] at hreq
            simp only [Bool.false_eq_true, if_false] at hreq
            rw [hnames, hres, hreq]

/-- C8 amended: properties declared through the raw-override or scalar
decorators carry an explicit required flag (the decorator's `opts`
parameter, whose TypeScript default is `{required: true}`), while
`ArrayProp` writes no required flag at all — so array-declared properties
are never required by default. The built schema's `required` list is
created on first use and holds exactly the names of the properties carrying
property metadata and a truthy required flag, in declaration order. -/
theorem prop_required_flag_amended
    (env : List ModelCtor) (i : Nat) (c : ModelCtor) (sch : OutSchema) (pending : List Nat)
    (hc : env.get? i = some c) (hraw : c.raw = none)
    (hok : buildSchemaFromAnnotatedType env i [] = .ok (sch, pending)) :
    ((∀ args r dt, (Prop' args r dt).required = some r) ∧
     (∀ s r dt, (PropRaw s r dt).required = some r) ∧
     (∀ args dt, (ArrayProp args dt).required = none)) ∧
    sch.required = match requiredNames c.props with
      | [] => none
      | l => some l := by
  refine ⟨⟨fun _ _ _ => rfl, fun _ _ _ => rfl, fun _ _ => rfl⟩, ?_⟩
  simp only [buildSchemaFromAnnotatedType, hc, hraw] at hok
  cases hbase : c.base with
  | none => rw [hbase] at hok; cases hok
  | some bi =>
      rw [hbase] at hok
      cases hloop : buildPropsLoop env c.props ⟨[], none, []⟩ with
      | error e => rw [hloop] at hok; cases hok
      | ok st =>
          rw [hloop] at hok
          simp only at hok
          cases hok
          have hreq := buildPropsLoop_required env c.props ⟨[], none, []⟩ st hloop
          simp only [OutSchema.required]
          rw [hreq]
          cases hnames : requiredNames c.props with
          | nil => rfl
          | cons a l => simp

/-- C8 counterexample: a property carrying array prop metadata, with no
explicit `required: false` anywhere, still ends up outside the schema's
`required` list (which is not even created) — refuting the claim that the
required flag of every property with metadata defaults to true. -/
theorem arrayProp_required_counterexample :
    buildSchemaFromAnnotatedType envC8 0 [] =
      .ok (.mk none (some "object") none none none none none
        (some [("xs", .mk none (some "array") none
          (some (OutSchema.refObj "#/components/schemas/X")) none none none none none [])])
        none [], []) ∧
    (ArrayProp ⟨.refObj "#/components/schemas/X", []⟩ .jarray).arrayProp.isSome = true ∧
    (ArrayProp ⟨.refObj "#/components/schemas/X", []⟩ .jarray).required = none :=
  ⟨rfl, rfl, rfl⟩

/-- C8 amended witness: the four-property model `W` yields the required
list `["p1", "p3"]` — the defaulted scalar prop and raw prop, in
declaration order; the explicitly-unrequired scalar prop and the array
prop are absent. -/
theorem prop_required_flag_amended_witness :
    ((∀ args r dt, (Prop' args r dt).required = some r) ∧
     (∀ s r dt, (PropRaw s r dt).required = some r) ∧
     (∀ args dt, (ArrayProp args dt).required = none)) ∧
    schC8w.required = match requiredNames ctorC8w.props with
      | [] => none
      | l => some l :=
  prop_required_flag_amended envC8w 0 ctorC8w schC8w [] rfl rfl rfl

end OAS
